import Mathlib

/-!
Verification of the WTHOR database codec (`wthor-rs`).

Shallow embedding: byte buffers are `List Nat` (file bytes are values `< 256`);
the fallible read path returns `Option` (`none` models `Err(ReadError)`, the one
read error of the crate); the write path returns the `Except WriteError Unit`
result together with the final contents of the destination buffer, making the
mutation of the caller's buffer explicit.
-/

namespace Wthor

/-- `u16::from_le_bytes` on two bytes. -/
def u16le (b0 b1 : Nat) : Nat := b0 + 256 * b1

/-- `u32::from_le_bytes` on four bytes. -/
def u32le (b0 b1 b2 b3 : Nat) : Nat := b0 + 256 * b1 + 65536 * b2 + 16777216 * b3

/-- Byte `i` of a buffer (indexing; buffers are always long enough at use sites). -/
def byte (l : List Nat) (i : Nat) : Nat := l.getD i 0

/-- `slice::split`: first `n` bytes and the remainder, requiring `n ≤ length`. -/
def split (n : Nat) (bytes : List Nat) : Option (List Nat × List Nat) :=
  if n ≤ bytes.length then some (bytes.take n, bytes.drop n) else none

/-- `slice::as_array`: view a slice as an `n`-array, requiring exact length. -/
def as_array (n : Nat) (bytes : List Nat) : Option (List Nat) :=
  if bytes.length = n then some bytes else none

/-- Partition a buffer into `count` chunks of `n` bytes each. -/
def chunksOf (n : Nat) : Nat → List Nat → List (List Nat)
  | 0, _ => []
  | count + 1, bytes => bytes.take n :: chunksOf n count (bytes.drop n)

/-- `slice::as_chunks`: `count` windows of `n` bytes, requiring `length = n * count`. -/
def as_chunks (n count : Nat) (bytes : List Nat) : Option (List (List Nat)) :=
  if bytes.length = n * count then some (chunksOf n count bytes) else none

/-- The raw 16-byte header fields, named after the `write_header` parameters. -/
structure RawHeader where
  created_centry : Nat
  created_year : Nat
  created_month : Nat
  created_day : Nat
  n1 : Nat
  n2 : Nat
  game_year : Nat
  p1 : Nat
  p2 : Nat
  p3 : Nat
deriving DecidableEq, Repr

/-- `read_header`: pure little-endian reinterpretation of the 16 header bytes. -/
def read_header (b : List Nat) : RawHeader :=
  ⟨byte b 0, byte b 1, byte b 2, byte b 3,
   u32le (byte b 4) (byte b 5) (byte b 6) (byte b 7),
   u16le (byte b 8) (byte b 9),
   u16le (byte b 10) (byte b 11),
   byte b 12, byte b 13, byte b 14⟩

/-- `write_header`: stores the fields little-endian into bytes 0..=14.
Byte 15 of the destination is not assigned. -/
def write_header (bytes : List Nat) (c y m d n1 n2 gy p1 p2 p3 : Nat) : List Nat :=
  ((((((((((((((bytes.set 0 c).set 1 y).set 2 m).set 3 d).set 4 (n1 % 256)).set 5
    (n1 / 256 % 256)).set 6 (n1 / 65536 % 256)).set 7 (n1 / 16777216 % 256)).set 8
    (n2 % 256)).set 9 (n2 / 256 % 256)).set 10 (gy % 256)).set 11
    (gy / 256 % 256)).set 12 p1).set 13 p2).set 14 p3

/-- `read_names_header`: reserved fields `n1`, `game_year`, `p1`, `p2` must be zero. -/
def read_names_header (b : List Nat) : Option (Nat × Nat × Nat × Nat × Nat) :=
  let h := read_header b
  if h.n1 ≠ 0 ∨ h.game_year ≠ 0 ∨ h.p1 ≠ 0 ∨ h.p2 ≠ 0 then none
  else some (h.created_centry, h.created_year, h.created_month, h.created_day, h.n2)

/-- `write_names_header`. -/
def write_names_header (bytes : List Nat) (c y m d n : Nat) : List Nat :=
  write_header bytes c y m d 0 n 0 0 0 0

/-- `read_games_header`: reserved fields `n2` and `game_type` (= `p2`) must be zero. -/
def read_games_header (b : List Nat) : Option (Nat × Nat × Nat × Nat × Nat × Nat × Nat × Nat) :=
  let h := read_header b
  if h.n2 ≠ 0 ∨ h.p2 ≠ 0 then none
  else some (h.created_centry, h.created_year, h.created_month, h.created_day,
             h.n1, h.game_year, h.p1, h.p3)

/-- `write_games_header`. -/
def write_games_header (bytes : List Nat) (c y m d n year sz depth : Nat) : List Nat :=
  write_header bytes c y m d n 0 year sz 0 depth

/-- `CStr::from_bytes_until_nul(...).to_bytes()`: the prefix before the first
NUL byte, failing when the slot holds no NUL at all. -/
def cstr_until_nul (chunk : List Nat) : Option (List Nat) :=
  if 0 ∈ chunk then some (chunk.takeWhile (fun b => b != 0)) else none

/-- `heapless::Vec::from_slice` with capacity `cap`. -/
def from_slice (cap : Nat) (l : List Nat) : Option (List Nat) :=
  if l.length ≤ cap then some l else none

/-- Decoding of one name slot inside `read_names`. -/
def read_name_slot (N : Nat) (chunk : List Nat) : Option (List Nat) :=
  match cstr_until_nul chunk with
  | none => none
  | some s => from_slice N s

/-- `read_names::<N, SN>`. -/
def read_names (N SN : Nat) (bytes : List Nat) (count : Nat) : Option (List (List Nat)) :=
  match as_chunks SN count bytes with
  | none => none
  | some chunks => chunks.mapM (read_name_slot N)

/-- Writing one name slot: `chunk[0..len] = name; chunk[len] = b'0'` (0x30 = 48),
the bytes after position `len` keep their previous contents. -/
def write_name_slot (slot name : List Nat) : List Nat :=
  name ++ 48 :: slot.drop (name.length + 1)

/-- An error while writing, after `WriteError`. -/
inductive WriteError where
  | invalidInput
  | tooManyElements
deriving DecidableEq, Repr

/-- `write_names::<N, SN>` (records region only): count check, exact chunking,
then each slot is written. The pair carries the result and the final region. -/
def write_names (SN : Nat) (bytes : List Nat) (names : List (List Nat)) (count : Nat) :
    Except WriteError Unit × List Nat :=
  if names.length ≠ count then (Except.error WriteError.tooManyElements, bytes)
  else
    match as_chunks SN names.length bytes with
    | none => (Except.error WriteError.invalidInput, bytes)
    | some chunks =>
      if chunks.length ≠ names.length then (Except.error WriteError.invalidInput, bytes)
      else (Except.ok (), (List.zipWith write_name_slot chunks names).flatten)

/-- `Game<N>`; the `moves` array invariant `moves.length = N` is carried as a
hypothesis where needed. -/
structure Game where
  tournament : Nat
  black_player : Nat
  white_player : Nat
  score : Nat
  theoretical_score : Nat
  moves : List Nat
deriving DecidableEq, Repr

/-- Decoding of one game record inside `read_games`: three little-endian `u16`
indices, two score bytes, then the move bytes viewed as an `N`-array. -/
def read_game (N : Nat) (chunk : List Nat) : Option Game :=
  match as_array N (chunk.drop 8) with
  | none => none
  | some moves =>
    some ⟨u16le (byte chunk 0) (byte chunk 1), u16le (byte chunk 2) (byte chunk 3),
          u16le (byte chunk 4) (byte chunk 5), byte chunk 6, byte chunk 7, moves⟩

/-- `read_games::<N, S>`. -/
def read_games (N S : Nat) (bytes : List Nat) (count : Nat) : Option (List Game) :=
  match as_chunks S count bytes with
  | none => none
  | some chunks => chunks.mapM (read_game N)

/-- The bytes written for one game record. -/
def write_game_slot (g : Game) : List Nat :=
  [g.tournament % 256, g.tournament / 256 % 256, g.black_player % 256,
   g.black_player / 256 % 256, g.white_player % 256, g.white_player / 256 % 256,
   g.score, g.theoretical_score] ++ g.moves

/-- The `zip(chunks, games)` loop of `write_games`: each slot checks that
`chunk[8..]` has exactly `N` bytes before the moves array is assigned. -/
def write_games_loop (N : Nat) : List (List Nat) → List Game → Except WriteError Unit × List Nat
  | [], _ => (Except.ok (), [])
  | chunks, [] => (Except.ok (), chunks.flatten)
  | chunk :: chunks, g :: gs =>
    if (chunk.drop 8).length = N then
      let p := write_games_loop N chunks gs
      (p.1, write_game_slot g ++ p.2)
    else (Except.error WriteError.invalidInput, (chunk :: chunks).flatten)

/-- `write_games::<N, S>` (records region only). -/
def write_games (N S : Nat) (bytes : List Nat) (games : List Game) (count : Nat) :
    Except WriteError Unit × List Nat :=
  if games.length ≠ count then (Except.error WriteError.tooManyElements, bytes)
  else
    match as_chunks S games.length bytes with
    | none => (Except.error WriteError.invalidInput, bytes)
    | some chunks =>
      if chunks.length ≠ games.length then (Except.error WriteError.invalidInput, bytes)
      else write_games_loop N chunks games

/-- `Jou`: player names, each a `heapless::Vec<u8, 19>` (length at most 19). -/
structure Jou where
  created_centry : Nat
  created_year : Nat
  created_month : Nat
  created_day : Nat
  players : List (List Nat)
deriving DecidableEq, Repr

/-- `Jou::read`. -/
def Jou.read (bytes : List Nat) : Option Jou :=
  match split 16 bytes with
  | none => none
  | some (header, players) =>
    match read_names_header header with
    | none => none
    | some (c, y, m, d, n) =>
      match read_names 19 20 players n with
      | none => none
      | some ps => some ⟨c, y, m, d, ps⟩

/-- `Jou::write`: the header is written first, then the name slots; the pair
carries the result and the final contents of the whole destination buffer. -/
def Jou.write (v : Jou) (bytes : List Nat) : Except WriteError Unit × List Nat :=
  match split 16 bytes with
  | none => (Except.error WriteError.invalidInput, bytes)
  | some (header, rest) =>
    let n := v.players.length % 65536
    let header2 := write_names_header header v.created_centry v.created_year
      v.created_month v.created_day n
    let p := write_names 20 rest v.players n
    (p.1, header2 ++ p.2)

/-- `Jou::size`. -/
def Jou.size (v : Jou) : Nat := 16 + 20 * v.players.length

/-- `Trn`: tournament names, each a `heapless::Vec<u8, 25>`. -/
structure Trn where
  created_centry : Nat
  created_year : Nat
  created_month : Nat
  created_day : Nat
  tournaments : List (List Nat)
deriving DecidableEq, Repr

/-- `Trn::read`. -/
def Trn.read (bytes : List Nat) : Option Trn :=
  match split 16 bytes with
  | none => none
  | some (header, names) =>
    match read_names_header header with
    | none => none
    | some (c, y, m, d, n) =>
      match read_names 25 26 names n with
      | none => none
      | some ts => some ⟨c, y, m, d, ts⟩

/-- `Trn::write`. -/
def Trn.write (v : Trn) (bytes : List Nat) : Except WriteError Unit × List Nat :=
  match split 16 bytes with
  | none => (Except.error WriteError.invalidInput, bytes)
  | some (header, rest) =>
    let n := v.tournaments.length % 65536
    let header2 := write_names_header header v.created_centry v.created_year
      v.created_month v.created_day n
    let p := write_names 26 rest v.tournaments n
    (p.1, header2 ++ p.2)

/-- `Trn::size`. -/
def Trn.size (v : Trn) : Nat := 16 + 26 * v.tournaments.length

/-- `Wtb`: 8x8 games. -/
structure Wtb where
  created_centry : Nat
  created_year : Nat
  created_month : Nat
  created_day : Nat
  year : Nat
  calculation_depth : Nat
  games : List Game
deriving DecidableEq, Repr

/-- `Wtb::read`: board size must be 0 (legacy) or 8. -/
def Wtb.read (bytes : List Nat) : Option Wtb :=
  match split 16 bytes with
  | none => none
  | some (header, games) =>
    match read_games_header header with
    | none => none
    | some (c, y, m, d, n, year, sz, depth) =>
      if sz ≠ 0 ∧ sz ≠ 8 then none
      else
        match read_games 60 68 games n with
        | none => none
        | some gs => some ⟨c, y, m, d, year, depth, gs⟩

/-- `Wtb::write`: writes board size 8. -/
def Wtb.write (v : Wtb) (bytes : List Nat) : Except WriteError Unit × List Nat :=
  match split 16 bytes with
  | none => (Except.error WriteError.invalidInput, bytes)
  | some (header, rest) =>
    let n := v.games.length % 4294967296
    let header2 := write_games_header header v.created_centry v.created_year
      v.created_month v.created_day n v.year 8 v.calculation_depth
    let p := write_games 60 68 rest v.games n
    (p.1, header2 ++ p.2)

/-- `Wtb::size`. -/
def Wtb.size (v : Wtb) : Nat := 16 + 68 * v.games.length

/-- `Wtd`: 10x10 games. -/
structure Wtd where
  created_centry : Nat
  created_year : Nat
  created_month : Nat
  created_day : Nat
  year : Nat
  calculation_depth : Nat
  games : List Game
deriving DecidableEq, Repr

/-- `Wtd::read`: board size must be exactly 10. -/
def Wtd.read (bytes : List Nat) : Option Wtd :=
  match split 16 bytes with
  | none => none
  | some (header, games) =>
    match read_games_header header with
    | none => none
    | some (c, y, m, d, n, year, sz, depth) =>
      if sz ≠ 10 then none
      else
        match read_games 96 104 games n with
        | none => none
        | some gs => some ⟨c, y, m, d, year, depth, gs⟩

/-- `Wtd::write`: writes board size 10. -/
def Wtd.write (v : Wtd) (bytes : List Nat) : Except WriteError Unit × List Nat :=
  match split 16 bytes with
  | none => (Except.error WriteError.invalidInput, bytes)
  | some (header, rest) =>
    let n := v.games.length % 4294967296
    let header2 := write_games_header header v.created_centry v.created_year
      v.created_month v.created_day n v.year 10 v.calculation_depth
    let p := write_games 96 104 rest v.games n
    (p.1, header2 ++ p.2)

/-- `Wtd::size`. -/
def Wtd.size (v : Wtd) : Nat := 16 + 104 * v.games.length

/-- The 56-byte player-name scenario buffer: header
`(0x14, 0x05, 0x06, 0x15, count = 2)` followed by a 20-byte slot holding
`"ALICE"` then `0x30` then zero bytes, and a 20-byte slot holding `"BOB"` then
`0x30` then zero bytes. -/
def aliceBobBuffer : List Nat :=
  [20, 5, 6, 21, 0, 0, 0, 0, 2, 0, 0, 0, 0, 0, 0, 0,
   65, 76, 73, 67, 69, 48, 0, 0, 0, 0, 0, 0, 0, 0, 0, 0, 0, 0, 0, 0,
   66, 79, 66, 48, 0, 0, 0, 0, 0, 0, 0, 0, 0, 0, 0, 0, 0, 0, 0, 0]

/-! ## Helper lemmas -/

theorem byte_take_lt (l : List Nat) (n i : Nat) (h : i < n) : byte (l.take n) i = byte l i := by
  simp [byte, List.getElem?_take_of_lt h]

theorem byte_set_self (l : List Nat) (i v : Nat) (h : i < l.length) :
    byte (l.set i v) i = v := by
  simp [byte, List.getElem?_set_self h]

theorem byte_set_ne (l : List Nat) (i j v : Nat) (h : i ≠ j) :
    byte (l.set i v) j = byte l j := by
  simp [byte, List.getElem?_set_ne h]

theorem length16_eq (b : List Nat) (h : b.length = 16) :
    b = [byte b 0, byte b 1, byte b 2, byte b 3, byte b 4, byte b 5, byte b 6, byte b 7,
         byte b 8, byte b 9, byte b 10, byte b 11, byte b 12, byte b 13, byte b 14,
         byte b 15] := by
  obtain ⟨x0, b, rfl⟩ := List.exists_of_length_succ b (show b.length = 15 + 1 by omega)
  simp only [List.length_cons] at h
  obtain ⟨x1, b, rfl⟩ := List.exists_of_length_succ b (show b.length = 14 + 1 by omega)
  simp only [List.length_cons] at h
  obtain ⟨x2, b, rfl⟩ := List.exists_of_length_succ b (show b.length = 13 + 1 by omega)
  simp only [List.length_cons] at h
  obtain ⟨x3, b, rfl⟩ := List.exists_of_length_succ b (show b.length = 12 + 1 by omega)
  simp only [List.length_cons] at h
  obtain ⟨x4, b, rfl⟩ := List.exists_of_length_succ b (show b.length = 11 + 1 by omega)
  simp only [List.length_cons] at h
  obtain ⟨x5, b, rfl⟩ := List.exists_of_length_succ b (show b.length = 10 + 1 by omega)
  simp only [List.length_cons] at h
  obtain ⟨x6, b, rfl⟩ := List.exists_of_length_succ b (show b.length = 9 + 1 by omega)
  simp only [List.length_cons] at h
  obtain ⟨x7, b, rfl⟩ := List.exists_of_length_succ b (show b.length = 8 + 1 by omega)
  simp only [List.length_cons] at h
  obtain ⟨x8, b, rfl⟩ := List.exists_of_length_succ b (show b.length = 7 + 1 by omega)
  simp only [List.length_cons] at h
  obtain ⟨x9, b, rfl⟩ := List.exists_of_length_succ b (show b.length = 6 + 1 by omega)
  simp only [List.length_cons] at h
  obtain ⟨x10, b, rfl⟩ := List.exists_of_length_succ b (show b.length = 5 + 1 by omega)
  simp only [List.length_cons] at h
  obtain ⟨x11, b, rfl⟩ := List.exists_of_length_succ b (show b.length = 4 + 1 by omega)
  simp only [List.length_cons] at h
  obtain ⟨x12, b, rfl⟩ := List.exists_of_length_succ b (show b.length = 3 + 1 by omega)
  simp only [List.length_cons] at h
  obtain ⟨x13, b, rfl⟩ := List.exists_of_length_succ b (show b.length = 2 + 1 by omega)
  simp only [List.length_cons] at h
  obtain ⟨x14, b, rfl⟩ := List.exists_of_length_succ b (show b.length = 1 + 1 by omega)
  simp only [List.length_cons] at h
  obtain ⟨x15, b, rfl⟩ := List.exists_of_length_succ b (show b.length = 0 + 1 by omega)
  simp only [List.length_cons] at h
  have hb : b = [] := List.length_eq_zero.mp (by omega)
  subst hb
  rfl

theorem write_header_eq_of_length (b : List Nat) (h : b.length = 16)
    (c y m d n1 n2 gy p1 p2 p3 : Nat) :
    write_header b c y m d n1 n2 gy p1 p2 p3 =
      [c, y, m, d, n1 % 256, n1 / 256 % 256, n1 / 65536 % 256, n1 / 16777216 % 256,
       n2 % 256, n2 / 256 % 256, gy % 256, gy / 256 % 256, p1, p2, p3, byte b 15] := by
  rw [length16_eq b h]
  rfl

theorem length_write_header (b : List Nat) (c y m d n1 n2 gy p1 p2 p3 : Nat) :
    (write_header b c y m d n1 n2 gy p1 p2 p3).length = b.length := by
  simp [write_header]

/-! ## Claim theorems -/

/-- C5 counterexample: `write_header` does not assign byte 15, so on a
destination whose byte 15 is initially 1 it stays 1, not 0. -/
theorem write_header_byte15_not_zeroed :
    byte (write_header (List.replicate 15 0 ++ [1]) 0 0 0 0 0 0 0 0 0 0) 15 ≠ 0 := by
  decide

/-- C5 (amended): `write_header` leaves the trailing padding byte (offset 15)
unchanged for every field tuple and every initial destination content; hence
after any of the four write operations on a freshly zero-initialized buffer of
the exact size, byte 15 of the header equals 0 because it was already 0. -/
theorem write_header_preserves_byte15 (b : List Nat) (c y m d n1 n2 gy p1 p2 p3 : Nat) :
    byte (write_header b c y m d n1 n2 gy p1 p2 p3) 15 = byte b 15 := by
  unfold write_header
  rw [byte_set_ne _ _ _ _ (by omega), byte_set_ne _ _ _ _ (by omega),
    byte_set_ne _ _ _ _ (by omega), byte_set_ne _ _ _ _ (by omega),
    byte_set_ne _ _ _ _ (by omega), byte_set_ne _ _ _ _ (by omega),
    byte_set_ne _ _ _ _ (by omega), byte_set_ne _ _ _ _ (by omega),
    byte_set_ne _ _ _ _ (by omega), byte_set_ne _ _ _ _ (by omega),
    byte_set_ne _ _ _ _ (by omega), byte_set_ne _ _ _ _ (by omega),
    byte_set_ne _ _ _ _ (by omega), byte_set_ne _ _ _ _ (by omega),
    byte_set_ne _ _ _ _ (by omega)]

theorem takeWhile_ne_zero_length_lt (l : List Nat) (h : 0 ∈ l) :
    (l.takeWhile (fun b => b != 0)).length < l.length := by
  induction l with
  | nil => cases h
  | cons x t ih =>
    by_cases hx : x = 0
    · subst hx
      simp [List.takeWhile_cons]
    · have hxt : 0 ∈ t := by
        rcases List.mem_cons.mp h with h0 | h0
        · exact absurd h0.symm hx
        · exact h0
      have : (x :: t).takeWhile (fun b => b != 0) = x :: t.takeWhile (fun b => b != 0) := by
        simp [List.takeWhile_cons, hx]
      rw [this]
      simpa using ih hxt

theorem mapM_option_eq_none {α β : Type} (f : α → Option β) (l : List α) (x : α)
    (hx : x ∈ l) (hfx : f x = none) : l.mapM f = none := by
  induction l with
  | nil => cases hx
  | cons a t ih =>
    rcases List.mem_cons.mp hx with h0 | h0
    · subst h0
      rw [List.mapM_cons, hfx]
      simp
    · rw [List.mapM_cons, ih h0]
      cases hfa : f a <;> simp

theorem chunksOf_mem_length (n : Nat) :
    ∀ (count : Nat) (bytes : List Nat), bytes.length = n * count →
      ∀ c ∈ chunksOf n count bytes, c.length = n := by
  intro count
  induction count with
  | zero => intro bytes _ c hc; cases hc
  | succ k ih =>
    intro bytes hlen c hc
    have hn : n ≤ bytes.length := by
      rw [hlen, Nat.mul_succ]
      omega
    rcases List.mem_cons.mp hc with h0 | h0
    · subst h0
      rw [List.length_take]
      omega
    · refine ih (bytes.drop n) ?_ c h0
      rw [List.length_drop, hlen, Nat.mul_succ]
      omega

theorem as_chunks_mem_length (n count : Nat) (bytes : List Nat) (chunks : List (List Nat))
    (h : as_chunks n count bytes = some chunks) : ∀ c ∈ chunks, c.length = n := by
  have hlen : bytes.length = n * count := by
    by_contra hne
    simp [as_chunks, hne] at h
  have hch : chunks = chunksOf n count bytes := by
    simp [as_chunks, hlen] at h
    exact h.symm
  subst hch
  exact chunksOf_mem_length n count bytes hlen

/-- C10: the fixed-offset slicing inside the codec never fails: on a 16-byte
header every `as_array` call of `read_header`/`write_header` succeeds; on a
record chunk of width `N + 8` every `as_array` call of
`read_games`/`write_games` succeeds (and the whole record decode succeeds); and
in `read_names` the `HeaplessVec::from_slice` error branch is unreachable,
because a terminated prefix of an `(N+1)`-byte slot has length at most `N`. -/
theorem internal_slicing_total :
    (∀ b : List Nat, b.length = 16 →
      (as_array 4 ((b.drop 4).take 4)).isSome ∧
      (as_array 2 ((b.drop 8).take 2)).isSome ∧
      (as_array 2 ((b.drop 10).take 2)).isSome) ∧
    (∀ (N : Nat) (chunk : List Nat), chunk.length = N + 8 →
      (as_array 2 (chunk.take 2)).isSome ∧
      (as_array 2 ((chunk.drop 2).take 2)).isSome ∧
      (as_array 2 ((chunk.drop 4).take 2)).isSome ∧
      (as_array N (chunk.drop 8)).isSome ∧
      (read_game N chunk).isSome) ∧
    (∀ (N : Nat) (chunk : List Nat), chunk.length = N + 1 → 0 ∈ chunk →
      (from_slice N (chunk.takeWhile (fun b => b != 0))).isSome ∧
      read_name_slot N chunk = some (chunk.takeWhile (fun b => b != 0))) := by
  refine ⟨?_, ?_, ?_⟩
  · intro b hb
    refine ⟨?_, ?_, ?_⟩ <;> simp [as_array, hb]
  · intro N chunk hc
    have hmoves : (as_array N (chunk.drop 8)).isSome := by
      simp [as_array, hc]
    refine ⟨?_, ?_, ?_, hmoves, ?_⟩
    · simp [as_array, hc]
    · simp [as_array, hc]
    · simp [as_array, hc]
    · rw [read_game]
      rcases hm : as_array N (chunk.drop 8) with _ | mv
      · rw [hm] at hmoves
        cases hmoves
      · simp
  · intro N chunk hc h0
    have hlt := takeWhile_ne_zero_length_lt chunk h0
    have hle : (chunk.takeWhile (fun b => b != 0)).length ≤ N := by omega
    constructor
    · simp [from_slice, hle]
    · simp [read_name_slot, cstr_until_nul, h0, from_slice, hle]

/-- C10 witness: the slicing success facts instantiated on concrete inputs. -/
theorem internal_slicing_total_witness :
    (as_array 4 (((List.replicate 16 0).drop 4).take 4)).isSome ∧
    (read_game 60 (List.replicate 68 0)).isSome ∧
    read_name_slot 19 (65 :: List.replicate 19 0) = some [65] :=
  ⟨(internal_slicing_total.1 (List.replicate 16 0) (by simp)).1,
   (internal_slicing_total.2.1 60 (List.replicate 68 0) (by simp)).2.2.2.2,
   by
    have := (internal_slicing_total.2.2 19 (65 :: List.replicate 19 0) (by simp)
      (by simp)).2
    simpa using this⟩

/-- C4 counterexample: a 20-byte player slot containing no 0x30 byte anywhere
(`65` followed by nineteen zero bytes) does not make `Jou::read` fail: the
buffer is accepted and the slot decodes to the name `[65]`, because the decoder
scans for NUL (0x00), not for 0x30. -/
theorem name_slot_sentinel_counterexample :
    (48 ∉ (65 :: List.replicate 19 0 : List Nat)) ∧
    Jou.read ([0, 0, 0, 0, 0, 0, 0, 0, 1, 0, 0, 0, 0, 0, 0, 0] ++
      (65 :: List.replicate 19 0)) = some ⟨0, 0, 0, 0, [[65]]⟩ := by
  constructor
  · decide
  · rfl

/-- C4 (amended): during name-table decoding the end-of-name sentinel scanned
for is the NUL byte 0x00, not 0x30: a slot of width `N + 1` that contains no
NUL byte anywhere causes read to fail with `ReadError`, the name is everything
before the first NUL byte, and at table level a chunked slot without NUL makes
`read_names` fail. -/
theorem name_slot_nul_sentinel :
    (∀ (N : Nat) (chunk : List Nat), chunk.length = N + 1 →
      (0 ∉ chunk → read_name_slot N chunk = none) ∧
      (0 ∈ chunk → read_name_slot N chunk = some (chunk.takeWhile (fun b => b != 0)))) ∧
    (∀ (N count : Nat) (bytes : List Nat) (chunks : List (List Nat)),
      as_chunks (N + 1) count bytes = some chunks →
      (∃ c ∈ chunks, 0 ∉ c) →
      read_names N (N + 1) bytes count = none) := by
  constructor
  · intro N chunk hc
    constructor
    · intro h0
      simp [read_name_slot, cstr_until_nul, h0]
    · intro h0
      have hlt := takeWhile_ne_zero_length_lt chunk h0
      have hle : (chunk.takeWhile (fun b => b != 0)).length ≤ N := by omega
      simp [read_name_slot, cstr_until_nul, h0, from_slice, hle]
  · intro N count bytes chunks hch ⟨c, hcmem, hc0⟩
    rw [read_names, hch]
    exact mapM_option_eq_none _ _ c hcmem (by simp [read_name_slot, cstr_until_nul, hc0])

/-- C4 witness: a 20-byte slot with no NUL byte fails; a NUL-terminated slot
decodes to the bytes before the NUL. -/
theorem name_slot_nul_sentinel_witness :
    read_name_slot 19 (List.replicate 20 1) = none ∧
    read_name_slot 19 (65 :: 66 :: List.replicate 18 0) = some [65, 66] :=
  ⟨((name_slot_nul_sentinel.1 19 (List.replicate 20 1) (by simp)).1 (by decide)),
   by
    have := (name_slot_nul_sentinel.1 19 (65 :: 66 :: List.replicate 18 0)
      (by simp)).2 (by simp)
    simpa using this⟩

theorem read_names_header_some (b : List Nat) (c y m d n : Nat)
    (h : read_names_header b = some (c, y, m, d, n)) :
    u32le (byte b 4) (byte b 5) (byte b 6) (byte b 7) = 0 ∧
    u16le (byte b 10) (byte b 11) = 0 ∧ byte b 12 = 0 ∧ byte b 13 = 0 ∧
    n = u16le (byte b 8) (byte b 9) := by
  simp only [read_names_header, read_header] at h
  split_ifs at h with hP
  push_neg at hP
  obtain ⟨h1, h2, h3, h4⟩ := hP
  simp only [Option.some.injEq, Prod.mk.injEq] at h
  exact ⟨h1, h2, h3, h4, h.2.2.2.2.symm⟩

theorem read_names_header_none (b : List Nat)
    (h : u32le (byte b 4) (byte b 5) (byte b 6) (byte b 7) ≠ 0 ∨
         u16le (byte b 10) (byte b 11) ≠ 0 ∨ byte b 12 ≠ 0 ∨ byte b 13 ≠ 0) :
    read_names_header b = none := by
  simp only [read_names_header, read_header]
  rw [if_pos h]

theorem read_games_header_some (b : List Nat) (c y m d n year sz depth : Nat)
    (h : read_games_header b = some (c, y, m, d, n, year, sz, depth)) :
    u16le (byte b 8) (byte b 9) = 0 ∧ byte b 13 = 0 ∧
    n = u32le (byte b 4) (byte b 5) (byte b 6) (byte b 7) := by
  simp only [read_games_header, read_header] at h
  split_ifs at h with hP
  push_neg at hP
  obtain ⟨h1, h2⟩ := hP
  simp only [Option.some.injEq, Prod.mk.injEq] at h
  exact ⟨h1, h2, h.2.2.2.2.1.symm⟩

theorem read_games_header_none (b : List Nat)
    (h : u16le (byte b 8) (byte b 9) ≠ 0 ∨ byte b 13 ≠ 0) :
    read_games_header b = none := by
  simp only [read_games_header, read_header]
  rw [if_pos h]

theorem read_names_none_of_length (N SN : Nat) (bytes : List Nat) (count : Nat)
    (h : bytes.length ≠ SN * count) : read_names N SN bytes count = none := by
  rw [read_names]
  simp [as_chunks, h]

theorem read_games_none_of_length (N S : Nat) (bytes : List Nat) (count : Nat)
    (h : bytes.length ≠ S * count) : read_games N S bytes count = none := by
  rw [read_games]
  simp [as_chunks, h]

theorem jou_read_eq (bytes : List Nat) (h16 : 16 ≤ bytes.length) :
    Jou.read bytes =
      match read_names_header (bytes.take 16) with
      | none => none
      | some (c, y, m, d, n) =>
        match read_names 19 20 (bytes.drop 16) n with
        | none => none
        | some ps => some ⟨c, y, m, d, ps⟩ := by
  simp only [Jou.read, split, if_pos h16]

theorem trn_read_eq (bytes : List Nat) (h16 : 16 ≤ bytes.length) :
    Trn.read bytes =
      match read_names_header (bytes.take 16) with
      | none => none
      | some (c, y, m, d, n) =>
        match read_names 25 26 (bytes.drop 16) n with
        | none => none
        | some ts => some ⟨c, y, m, d, ts⟩ := by
  simp only [Trn.read, split, if_pos h16]

theorem wtb_read_eq (bytes : List Nat) (h16 : 16 ≤ bytes.length) :
    Wtb.read bytes =
      match read_games_header (bytes.take 16) with
      | none => none
      | some (c, y, m, d, n, year, sz, depth) =>
        if sz ≠ 0 ∧ sz ≠ 8 then none
        else
          match read_games 60 68 (bytes.drop 16) n with
          | none => none
          | some gs => some ⟨c, y, m, d, year, depth, gs⟩ := by
  simp only [Wtb.read, split, if_pos h16]

theorem wtd_read_eq (bytes : List Nat) (h16 : 16 ≤ bytes.length) :
    Wtd.read bytes =
      match read_games_header (bytes.take 16) with
      | none => none
      | some (c, y, m, d, n, year, sz, depth) =>
        if sz ≠ 10 then none
        else
          match read_games 96 104 (bytes.drop 16) n with
          | none => none
          | some gs => some ⟨c, y, m, d, year, depth, gs⟩ := by
  simp only [Wtd.read, split, if_pos h16]

/-- C7: chunking a records section into `count` records of width `n` succeeds
if and only if the section's length is exactly `n * count`; consequently every
one of the four reads fails when the bytes after the 16-byte header are not
exactly the record width times the header's declared count. -/
theorem chunking_exact :
    (∀ (n count : Nat) (bytes : List Nat),
      (as_chunks n count bytes).isSome ↔ bytes.length = n * count) ∧
    (∀ bytes : List Nat, 16 ≤ bytes.length →
      bytes.length - 16 ≠ 20 * u16le (byte bytes 8) (byte bytes 9) →
      Jou.read bytes = none) ∧
    (∀ bytes : List Nat, 16 ≤ bytes.length →
      bytes.length - 16 ≠ 26 * u16le (byte bytes 8) (byte bytes 9) →
      Trn.read bytes = none) ∧
    (∀ bytes : List Nat, 16 ≤ bytes.length →
      bytes.length - 16 ≠
        68 * u32le (byte bytes 4) (byte bytes 5) (byte bytes 6) (byte bytes 7) →
      Wtb.read bytes = none) ∧
    (∀ bytes : List Nat, 16 ≤ bytes.length →
      bytes.length - 16 ≠
        104 * u32le (byte bytes 4) (byte bytes 5) (byte bytes 6) (byte bytes 7) →
      Wtd.read bytes = none) := by
  have hb4 : ∀ bytes : List Nat, ∀ i < 16, byte (bytes.take 16) i = byte bytes i :=
    fun bytes i hi => byte_take_lt bytes 16 i hi
  refine ⟨?_, ?_, ?_, ?_, ?_⟩
  · intro n count bytes
    by_cases h : bytes.length = n * count <;> simp [as_chunks, h]
  · intro bytes h16 hm
    rw [jou_read_eq bytes h16]
    cases hh : read_names_header (bytes.take 16) with
    | none => rfl
    | some t =>
      obtain ⟨c, y, m, d, n⟩ := t
      have hn := (read_names_header_some _ _ _ _ _ _ hh).2.2.2.2
      rw [hb4 bytes 8 (by omega), hb4 bytes 9 (by omega)] at hn
      simp [read_names_none_of_length 19 20 (bytes.drop 16) n
        (by rw [List.length_drop, hn]; exact hm)]
  · intro bytes h16 hm
    rw [trn_read_eq bytes h16]
    cases hh : read_names_header (bytes.take 16) with
    | none => rfl
    | some t =>
      obtain ⟨c, y, m, d, n⟩ := t
      have hn := (read_names_header_some _ _ _ _ _ _ hh).2.2.2.2
      rw [hb4 bytes 8 (by omega), hb4 bytes 9 (by omega)] at hn
      simp [read_names_none_of_length 25 26 (bytes.drop 16) n
        (by rw [List.length_drop, hn]; exact hm)]
  · intro bytes h16 hm
    rw [wtb_read_eq bytes h16]
    cases hh : read_games_header (bytes.take 16) with
    | none => rfl
    | some t =>
      obtain ⟨c, y, m, d, n, year, sz, depth⟩ := t
      have hn := (read_games_header_some _ _ _ _ _ _ _ _ _ hh).2.2
      rw [hb4 bytes 4 (by omega), hb4 bytes 5 (by omega), hb4 bytes 6 (by omega),
        hb4 bytes 7 (by omega)] at hn
      by_cases hsz : sz ≠ 0 ∧ sz ≠ 8
      · simp [hsz]
      · simp [hsz, read_games_none_of_length 60 68 (bytes.drop 16) n
          (by rw [List.length_drop, hn]; exact hm)]
  · intro bytes h16 hm
    rw [wtd_read_eq bytes h16]
    cases hh : read_games_header (bytes.take 16) with
    | none => rfl
    | some t =>
      obtain ⟨c, y, m, d, n, year, sz, depth⟩ := t
      have hn := (read_games_header_some _ _ _ _ _ _ _ _ _ hh).2.2
      rw [hb4 bytes 4 (by omega), hb4 bytes 5 (by omega), hb4 bytes 6 (by omega),
        hb4 bytes 7 (by omega)] at hn
      by_cases hsz : sz ≠ 10
      · simp [hsz]
      · simp [hsz, read_games_none_of_length 96 104 (bytes.drop 16) n
          (by rw [List.length_drop, hn]; exact hm)]

/-- C7 witness: a buffer of 17 bytes (one byte of trailing garbage after a
zero-count header) is rejected by every kind, and the chunking equivalence at a
concrete instance. -/
theorem chunking_exact_witness :
    (as_chunks 20 2 (List.replicate 40 0)).isSome ∧
    Jou.read (List.replicate 17 0) = none ∧
    Trn.read (List.replicate 17 0) = none ∧
    Wtb.read (List.replicate 17 0) = none ∧
    Wtd.read (List.replicate 17 0) = none :=
  ⟨(chunking_exact.1 20 2 (List.replicate 40 0)).mpr (by simp),
   chunking_exact.2.1 (List.replicate 17 0) (by simp) (by decide),
   chunking_exact.2.2.1 (List.replicate 17 0) (by simp) (by decide),
   chunking_exact.2.2.2.1 (List.replicate 17 0) (by simp) (by decide),
   chunking_exact.2.2.2.2 (List.replicate 17 0) (by simp) (by decide)⟩

theorem byte_set (l : List Nat) (i j v : Nat) (hlen : i < l.length) :
    byte (l.set i v) j = if i = j then v else byte l j := by
  by_cases h : i = j
  · subst h
    simp [byte_set_self _ _ _ hlen]
  · simp [h, byte_set_ne _ _ _ _ h]

theorem jou_read_length (bytes : List Nat) (j : Jou) (h : Jou.read bytes = some j) :
    16 ≤ bytes.length := by
  by_contra hlt
  rw [Jou.read] at h
  simp [split, hlt] at h

theorem wtb_read_length (bytes : List Nat) (w : Wtb) (h : Wtb.read bytes = some w) :
    16 ≤ bytes.length := by
  by_contra hlt
  rw [Wtb.read] at h
  simp [split, hlt] at h

theorem jou_read_some_reserved (bytes : List Nat) (j : Jou) (h : Jou.read bytes = some j) :
    16 ≤ bytes.length ∧
    byte bytes 4 = 0 ∧ byte bytes 5 = 0 ∧ byte bytes 6 = 0 ∧ byte bytes 7 = 0 ∧
    byte bytes 10 = 0 ∧ byte bytes 11 = 0 ∧ byte bytes 12 = 0 ∧ byte bytes 13 = 0 := by
  have h16 := jou_read_length bytes j h
  rw [jou_read_eq bytes h16] at h
  cases hh : read_names_header (bytes.take 16) with
  | none => rw [hh] at h; simp at h
  | some t =>
    obtain ⟨c, y, m, d, n⟩ := t
    have hs := read_names_header_some _ _ _ _ _ _ hh
    have e4 := hs.1
    have e10 := hs.2.1
    have e12 := hs.2.2.1
    have e13 := hs.2.2.2.1
    rw [byte_take_lt _ _ _ (by omega : (4 : Nat) < 16),
      byte_take_lt _ _ _ (by omega : (5 : Nat) < 16),
      byte_take_lt _ _ _ (by omega : (6 : Nat) < 16),
      byte_take_lt _ _ _ (by omega : (7 : Nat) < 16)] at e4
    rw [byte_take_lt _ _ _ (by omega : (10 : Nat) < 16),
      byte_take_lt _ _ _ (by omega : (11 : Nat) < 16)] at e10
    rw [byte_take_lt _ _ _ (by omega : (12 : Nat) < 16)] at e12
    rw [byte_take_lt _ _ _ (by omega : (13 : Nat) < 16)] at e13
    simp only [u32le] at e4
    simp only [u16le] at e10
    exact ⟨h16, by omega, by omega, by omega, by omega, by omega, by omega, e12, e13⟩

theorem wtb_read_some_reserved (bytes : List Nat) (w : Wtb) (h : Wtb.read bytes = some w) :
    16 ≤ bytes.length ∧
    byte bytes 8 = 0 ∧ byte bytes 9 = 0 ∧ byte bytes 13 = 0 := by
  have h16 := wtb_read_length bytes w h
  rw [wtb_read_eq bytes h16] at h
  cases hh : read_games_header (bytes.take 16) with
  | none => rw [hh] at h; simp at h
  | some t =>
    obtain ⟨c, y, m, d, n, year, sz, depth⟩ := t
    have hs := read_games_header_some _ _ _ _ _ _ _ _ _ hh
    have e8 := hs.1
    have e13 := hs.2.1
    rw [byte_take_lt _ _ _ (by omega : (8 : Nat) < 16),
      byte_take_lt _ _ _ (by omega : (9 : Nat) < 16)] at e8
    rw [byte_take_lt _ _ _ (by omega : (13 : Nat) < 16)] at e13
    simp only [u16le] at e8
    exact ⟨h16, by omega, by omega, e13⟩

theorem jou_read_none_of_reserved (bytes : List Nat) (h16 : 16 ≤ bytes.length)
    (h : u32le (byte bytes 4) (byte bytes 5) (byte bytes 6) (byte bytes 7) ≠ 0 ∨
         u16le (byte bytes 10) (byte bytes 11) ≠ 0 ∨
         byte bytes 12 ≠ 0 ∨ byte bytes 13 ≠ 0) :
    Jou.read bytes = none := by
  rw [jou_read_eq bytes h16]
  have hnone : read_names_header (bytes.take 16) = none := by
    apply read_names_header_none
    rw [byte_take_lt _ _ _ (by omega : (4 : Nat) < 16),
      byte_take_lt _ _ _ (by omega : (5 : Nat) < 16),
      byte_take_lt _ _ _ (by omega : (6 : Nat) < 16),
      byte_take_lt _ _ _ (by omega : (7 : Nat) < 16),
      byte_take_lt _ _ _ (by omega : (10 : Nat) < 16),
      byte_take_lt _ _ _ (by omega : (11 : Nat) < 16),
      byte_take_lt _ _ _ (by omega : (12 : Nat) < 16),
      byte_take_lt _ _ _ (by omega : (13 : Nat) < 16)]
    exact h
  simp [hnone]

theorem wtb_read_none_of_reserved (bytes : List Nat) (h16 : 16 ≤ bytes.length)
    (h : u16le (byte bytes 8) (byte bytes 9) ≠ 0 ∨ byte bytes 13 ≠ 0) :
    Wtb.read bytes = none := by
  rw [wtb_read_eq bytes h16]
  have hnone : read_games_header (bytes.take 16) = none := by
    apply read_games_header_none
    rw [byte_take_lt _ _ _ (by omega : (8 : Nat) < 16),
      byte_take_lt _ _ _ (by omega : (9 : Nat) < 16),
      byte_take_lt _ _ _ (by omega : (13 : Nat) < 16)]
    exact h
  simp [hnone]

/-- C3: for every buffer accepted by `Jou::read` (respectively `Wtb::read`),
overwriting any single reserved-must-be-zero header byte with any nonzero value
makes read fail; the name-file reserved offsets are 4-7, 10-11, 12 and 13, the
game-file reserved offsets are 8-9 and 13. -/
theorem reserved_byte_rejection :
    (∀ (bytes : List Nat) (j : Jou), Jou.read bytes = some j →
      ∀ i ∈ ([4, 5, 6, 7, 10, 11, 12, 13] : List Nat), ∀ v : Nat, v ≠ 0 →
        Jou.read (bytes.set i v) = none) ∧
    (∀ (bytes : List Nat) (w : Wtb), Wtb.read bytes = some w →
      ∀ i ∈ ([8, 9, 13] : List Nat), ∀ v : Nat, v ≠ 0 →
        Wtb.read (bytes.set i v) = none) := by
  constructor
  · intro bytes j h i hi v hv
    obtain ⟨h16, h4, h5, h6, h7, h10, h11, h12, h13⟩ := jou_read_some_reserved bytes j h
    simp only [List.mem_cons, List.not_mem_nil, or_false] at hi
    have hbs : ∀ k, byte (bytes.set i v) k = if i = k then v else byte bytes k := by
      intro k
      apply byte_set
      omega
    apply jou_read_none_of_reserved _ (by simpa using h16)
    rcases hi with rfl | rfl | rfl | rfl | rfl | rfl | rfl | rfl <;>
      simp [hbs, u32le, u16le, h4, h5, h6, h7, h10, h11, h12, h13, hv]
  · intro bytes w h i hi v hv
    obtain ⟨h16, h8, h9, h13⟩ := wtb_read_some_reserved bytes w h
    simp only [List.mem_cons, List.not_mem_nil, or_false] at hi
    have hbs : ∀ k, byte (bytes.set i v) k = if i = k then v else byte bytes k := by
      intro k
      apply byte_set
      omega
    apply wtb_read_none_of_reserved _ (by simpa using h16)
    rcases hi with rfl | rfl | rfl <;>
      simp [hbs, u16le, h8, h9, h13, hv]

/-- C3 witness: setting reserved byte 4 of an accepted name file, and reserved
byte 13 of an accepted game file, to 1 makes read fail. -/
theorem reserved_byte_rejection_witness :
    Jou.read ((List.replicate 16 0).set 4 1) = none ∧
    Wtb.read ((List.replicate 16 0).set 13 1) = none :=
  ⟨reserved_byte_rejection.1 (List.replicate 16 0) ⟨0, 0, 0, 0, []⟩ rfl 4 (by decide) 1
    (by decide),
   reserved_byte_rejection.2 (List.replicate 16 0) ⟨0, 0, 0, 0, 0, 0, []⟩ rfl 13 (by decide) 1
    (by decide)⟩

theorem jou_write_eq (v : Jou) (bytes : List Nat) (h16 : 16 ≤ bytes.length) :
    v.write bytes =
      ((write_names 20 (bytes.drop 16) v.players (v.players.length % 65536)).1,
       write_names_header (bytes.take 16) v.created_centry v.created_year v.created_month
         v.created_day (v.players.length % 65536) ++
       (write_names 20 (bytes.drop 16) v.players (v.players.length % 65536)).2) := by
  simp only [Jou.write, split, if_pos h16]

theorem trn_write_eq (v : Trn) (bytes : List Nat) (h16 : 16 ≤ bytes.length) :
    v.write bytes =
      ((write_names 26 (bytes.drop 16) v.tournaments (v.tournaments.length % 65536)).1,
       write_names_header (bytes.take 16) v.created_centry v.created_year v.created_month
         v.created_day (v.tournaments.length % 65536) ++
       (write_names 26 (bytes.drop 16) v.tournaments (v.tournaments.length % 65536)).2) := by
  simp only [Trn.write, split, if_pos h16]

theorem wtb_write_eq (v : Wtb) (bytes : List Nat) (h16 : 16 ≤ bytes.length) :
    v.write bytes =
      ((write_games 60 68 (bytes.drop 16) v.games (v.games.length % 4294967296)).1,
       write_games_header (bytes.take 16) v.created_centry v.created_year v.created_month
         v.created_day (v.games.length % 4294967296) v.year 8 v.calculation_depth ++
       (write_games 60 68 (bytes.drop 16) v.games (v.games.length % 4294967296)).2) := by
  simp only [Wtb.write, split, if_pos h16]

theorem wtd_write_eq (v : Wtd) (bytes : List Nat) (h16 : 16 ≤ bytes.length) :
    v.write bytes =
      ((write_games 96 104 (bytes.drop 16) v.games (v.games.length % 4294967296)).1,
       write_games_header (bytes.take 16) v.created_centry v.created_year v.created_month
         v.created_day (v.games.length % 4294967296) v.year 10 v.calculation_depth ++
       (write_games 96 104 (bytes.drop 16) v.games (v.games.length % 4294967296)).2) := by
  simp only [Wtd.write, split, if_pos h16]

theorem jou_write_short (v : Jou) (bytes : List Nat) (hlt : bytes.length < 16) :
    v.write bytes = (Except.error WriteError.invalidInput, bytes) := by
  simp [Jou.write, split, show ¬ (16 : Nat) ≤ bytes.length by omega]

theorem trn_write_short (v : Trn) (bytes : List Nat) (hlt : bytes.length < 16) :
    v.write bytes = (Except.error WriteError.invalidInput, bytes) := by
  simp [Trn.write, split, show ¬ (16 : Nat) ≤ bytes.length by omega]

theorem wtb_write_short (v : Wtb) (bytes : List Nat) (hlt : bytes.length < 16) :
    v.write bytes = (Except.error WriteError.invalidInput, bytes) := by
  simp [Wtb.write, split, show ¬ (16 : Nat) ≤ bytes.length by omega]

theorem wtd_write_short (v : Wtd) (bytes : List Nat) (hlt : bytes.length < 16) :
    v.write bytes = (Except.error WriteError.invalidInput, bytes) := by
  simp [Wtd.write, split, show ¬ (16 : Nat) ≤ bytes.length by omega]

theorem write_names_fst_ne_ok (SN : Nat) (rest : List Nat) (names : List (List Nat))
    (count : Nat) (hlen : rest.length ≠ SN * names.length) :
    (write_names SN rest names count).1 ≠ Except.ok () := by
  rw [write_names]
  split_ifs with hc
  · simp
  · simp [as_chunks, hlen]

theorem write_names_fst_count (SN : Nat) (rest : List Nat) (names : List (List Nat))
    (count : Nat) (hc : names.length ≠ count) :
    (write_names SN rest names count).1 = Except.error WriteError.tooManyElements := by
  simp [write_names, hc]

theorem write_games_fst_ne_ok (N S : Nat) (rest : List Nat) (games : List Game)
    (count : Nat) (hlen : rest.length ≠ S * games.length) :
    (write_games N S rest games count).1 ≠ Except.ok () := by
  rw [write_games]
  split_ifs with hc
  · simp
  · simp [as_chunks, hlen]

theorem write_games_fst_count (N S : Nat) (rest : List Nat) (games : List Game)
    (count : Nat) (hc : games.length ≠ count) :
    (write_games N S rest games count).1 = Except.error WriteError.tooManyElements := by
  simp [write_games, hc]

set_option maxHeartbeats 1000000 in
/-- C6: for every in-memory value of any of the four kinds, `write` into a
destination buffer whose length differs from `size()` (in particular
`size() + 1` or `size() - 1`) returns an error: write succeeds only on buffers
of exactly `size()` bytes. -/
theorem write_exact_size :
    (∀ (v : Jou) (bytes : List Nat), bytes.length ≠ v.size →
      (v.write bytes).1 ≠ Except.ok ()) ∧
    (∀ (v : Trn) (bytes : List Nat), bytes.length ≠ v.size →
      (v.write bytes).1 ≠ Except.ok ()) ∧
    (∀ (v : Wtb) (bytes : List Nat), bytes.length ≠ v.size →
      (v.write bytes).1 ≠ Except.ok ()) ∧
    (∀ (v : Wtd) (bytes : List Nat), bytes.length ≠ v.size →
      (v.write bytes).1 ≠ Except.ok ()) := by
  refine ⟨?_, ?_, ?_, ?_⟩
  · intro v bytes hne
    rw [Jou.size] at hne
    by_cases h16 : 16 ≤ bytes.length
    · rw [jou_write_eq v bytes h16]
      apply write_names_fst_ne_ok
      rw [List.length_drop]
      omega
    · rw [jou_write_short v bytes (by omega)]
      simp
  · intro v bytes hne
    rw [Trn.size] at hne
    by_cases h16 : 16 ≤ bytes.length
    · rw [trn_write_eq v bytes h16]
      apply write_names_fst_ne_ok
      rw [List.length_drop]
      omega
    · rw [trn_write_short v bytes (by omega)]
      simp
  · intro v bytes hne
    rw [Wtb.size] at hne
    by_cases h16 : 16 ≤ bytes.length
    · rw [wtb_write_eq v bytes h16]
      apply write_games_fst_ne_ok
      rw [List.length_drop]
      omega
    · rw [wtb_write_short v bytes (by omega)]
      simp
  · intro v bytes hne
    rw [Wtd.size] at hne
    by_cases h16 : 16 ≤ bytes.length
    · rw [wtd_write_eq v bytes h16]
      apply write_games_fst_ne_ok
      rw [List.length_drop]
      omega
    · rw [wtd_write_short v bytes (by omega)]
      simp

/-- C6 witness: writing an empty name file (size 16) into a 17-byte and a
15-byte buffer both fail. -/
theorem write_exact_size_witness :
    (Jou.write ⟨0, 0, 0, 0, []⟩ (List.replicate 17 0)).1 ≠ Except.ok () ∧
    (Jou.write ⟨0, 0, 0, 0, []⟩ (List.replicate 15 0)).1 ≠ Except.ok () :=
  ⟨write_exact_size.1 ⟨0, 0, 0, 0, []⟩ (List.replicate 17 0) (by simp [Jou.size]),
   write_exact_size.1 ⟨0, 0, 0, 0, []⟩ (List.replicate 15 0) (by simp [Jou.size])⟩

set_option maxHeartbeats 1000000 in
/-- C9: the record count stored in the header is the sequence length reduced
modulo the field width (`u16` for name files, `u32` for game files), and the
count check compares the unreduced length against the reduced one, so a value
with `2^16` or more names (respectively `2^32` or more games) can never be
written: `write` fails, with `TooManyElements` whenever the destination holds
at least the 16 header bytes. -/
theorem count_cast_overflow :
    (∀ (v : Jou) (bytes : List Nat), 65536 ≤ v.players.length →
      (v.write bytes).1 ≠ Except.ok () ∧
      (16 ≤ bytes.length →
        (v.write bytes).1 = Except.error WriteError.tooManyElements)) ∧
    (∀ (v : Trn) (bytes : List Nat), 65536 ≤ v.tournaments.length →
      (v.write bytes).1 ≠ Except.ok () ∧
      (16 ≤ bytes.length →
        (v.write bytes).1 = Except.error WriteError.tooManyElements)) ∧
    (∀ (v : Wtb) (bytes : List Nat), 4294967296 ≤ v.games.length →
      (v.write bytes).1 ≠ Except.ok () ∧
      (16 ≤ bytes.length →
        (v.write bytes).1 = Except.error WriteError.tooManyElements)) ∧
    (∀ (v : Wtd) (bytes : List Nat), 4294967296 ≤ v.games.length →
      (v.write bytes).1 ≠ Except.ok () ∧
      (16 ≤ bytes.length →
        (v.write bytes).1 = Except.error WriteError.tooManyElements)) := by
  refine ⟨?_, ?_, ?_, ?_⟩
  · intro v bytes hbig
    have hc : v.players.length ≠ v.players.length % 65536 := by
      have := Nat.mod_lt v.players.length (show 0 < 65536 by omega)
      omega
    constructor
    · by_cases h16 : 16 ≤ bytes.length
      · rw [jou_write_eq v bytes h16, write_names_fst_count 20 _ _ _ hc]
        simp
      · rw [jou_write_short v bytes (by omega)]
        simp
    · intro h16
      rw [jou_write_eq v bytes h16]
      exact write_names_fst_count 20 _ _ _ hc
  · intro v bytes hbig
    have hc : v.tournaments.length ≠ v.tournaments.length % 65536 := by
      have := Nat.mod_lt v.tournaments.length (show 0 < 65536 by omega)
      omega
    constructor
    · by_cases h16 : 16 ≤ bytes.length
      · rw [trn_write_eq v bytes h16, write_names_fst_count 26 _ _ _ hc]
        simp
      · rw [trn_write_short v bytes (by omega)]
        simp
    · intro h16
      rw [trn_write_eq v bytes h16]
      exact write_names_fst_count 26 _ _ _ hc
  · intro v bytes hbig
    have hc : v.games.length ≠ v.games.length % 4294967296 := by
      have := Nat.mod_lt v.games.length (show 0 < 4294967296 by omega)
      omega
    constructor
    · by_cases h16 : 16 ≤ bytes.length
      · rw [wtb_write_eq v bytes h16, write_games_fst_count 60 68 _ _ _ hc]
        simp
      · rw [wtb_write_short v bytes (by omega)]
        simp
    · intro h16
      rw [wtb_write_eq v bytes h16]
      exact write_games_fst_count 60 68 _ _ _ hc
  · intro v bytes hbig
    have hc : v.games.length ≠ v.games.length % 4294967296 := by
      have := Nat.mod_lt v.games.length (show 0 < 4294967296 by omega)
      omega
    constructor
    · by_cases h16 : 16 ≤ bytes.length
      · rw [wtd_write_eq v bytes h16, write_games_fst_count 96 104 _ _ _ hc]
        simp
      · rw [wtd_write_short v bytes (by omega)]
        simp
    · intro h16
      rw [wtd_write_eq v bytes h16]
      exact write_games_fst_count 96 104 _ _ _ hc

/-- C9 witness: a name file with `2^16` empty names cannot be written even into
a buffer of the nominal size; the failure is `TooManyElements`. -/
theorem count_cast_overflow_witness :
    (Jou.write ⟨0, 0, 0, 0, List.replicate 65536 []⟩ (List.replicate 16 0)).1 =
      Except.error WriteError.tooManyElements :=
  (count_cast_overflow.1 ⟨0, 0, 0, 0, List.replicate 65536 []⟩ (List.replicate 16 0)
    (by rw [List.length_replicate])).2 (by rw [List.length_replicate])

theorem write_names_error_frame (SN : Nat) (rest : List Nat) (names : List (List Nat))
    (count : Nat) (h : (write_names SN rest names count).1 ≠ Except.ok ()) :
    (write_names SN rest names count).2 = rest := by
  rw [write_names] at h ⊢
  split_ifs at h ⊢ with hc
  · rfl
  · cases hch : as_chunks SN names.length rest with
    | none => simp [hch]
    | some chunks =>
      simp only [hch] at h ⊢
      split_ifs at h ⊢ with hck
      · rfl
      · exact absurd rfl h

theorem write_games_loop_ok (N : Nat) (chunks : List (List Nat)) (games : List Game)
    (h : ∀ c ∈ chunks, c.length = N + 8) :
    (write_games_loop N chunks games).1 = Except.ok () := by
  induction chunks generalizing games with
  | nil => cases games <;> rfl
  | cons c cs ih =>
    cases games with
    | nil => rfl
    | cons g gs =>
      have hcl : c.length = N + 8 := h c (by simp)
      rw [write_games_loop, if_pos (by rw [List.length_drop, hcl]; omega)]
      exact ih gs (fun c' hc' => h c' (by simp [hc']))

theorem write_games_error_frame (N : Nat) (rest : List Nat) (games : List Game)
    (count : Nat) (h : (write_games N (N + 8) rest games count).1 ≠ Except.ok ()) :
    (write_games N (N + 8) rest games count).2 = rest := by
  rw [write_games] at h ⊢
  split_ifs at h ⊢ with hc
  · rfl
  · cases hch : as_chunks (N + 8) games.length rest with
    | none => simp [hch]
    | some chunks =>
      simp only [hch] at h ⊢
      split_ifs at h ⊢ with hck
      · rfl
      · exact absurd (write_games_loop_ok N chunks games
          (as_chunks_mem_length _ _ _ _ hch)) h

set_option maxHeartbeats 1000000 in
/-- C8: failed writes are not atomic: whenever `write` returns an error on a
destination of length at least 16, the encoded header has already been stored
in bytes 0..=14 while every byte from offset 16 on is unchanged (byte 15 is
never touched). -/
theorem write_failure_frame :
    (∀ (v : Jou) (bytes : List Nat), 16 ≤ bytes.length →
      (v.write bytes).1 ≠ Except.ok () →
      (v.write bytes).2.take 15 =
        [v.created_centry, v.created_year, v.created_month, v.created_day, 0, 0, 0, 0,
         v.players.length % 65536 % 256, v.players.length % 65536 / 256 % 256,
         0, 0, 0, 0, 0] ∧
      (v.write bytes).2.drop 16 = bytes.drop 16) ∧
    (∀ (v : Trn) (bytes : List Nat), 16 ≤ bytes.length →
      (v.write bytes).1 ≠ Except.ok () →
      (v.write bytes).2.take 15 =
        [v.created_centry, v.created_year, v.created_month, v.created_day, 0, 0, 0, 0,
         v.tournaments.length % 65536 % 256, v.tournaments.length % 65536 / 256 % 256,
         0, 0, 0, 0, 0] ∧
      (v.write bytes).2.drop 16 = bytes.drop 16) ∧
    (∀ (v : Wtb) (bytes : List Nat), 16 ≤ bytes.length →
      (v.write bytes).1 ≠ Except.ok () →
      (v.write bytes).2.take 15 =
        [v.created_centry, v.created_year, v.created_month, v.created_day,
         v.games.length % 4294967296 % 256, v.games.length % 4294967296 / 256 % 256,
         v.games.length % 4294967296 / 65536 % 256,
         v.games.length % 4294967296 / 16777216 % 256,
         0, 0, v.year % 256, v.year / 256 % 256, 8, 0, v.calculation_depth] ∧
      (v.write bytes).2.drop 16 = bytes.drop 16) ∧
    (∀ (v : Wtd) (bytes : List Nat), 16 ≤ bytes.length →
      (v.write bytes).1 ≠ Except.ok () →
      (v.write bytes).2.take 15 =
        [v.created_centry, v.created_year, v.created_month, v.created_day,
         v.games.length % 4294967296 % 256, v.games.length % 4294967296 / 256 % 256,
         v.games.length % 4294967296 / 65536 % 256,
         v.games.length % 4294967296 / 16777216 % 256,
         0, 0, v.year % 256, v.year / 256 % 256, 10, 0, v.calculation_depth] ∧
      (v.write bytes).2.drop 16 = bytes.drop 16) := by
  refine ⟨?_, ?_, ?_, ?_⟩
  · intro v bytes h16 herr
    have hlen16 : (bytes.take 16).length = 16 := by
      rw [List.length_take]
      omega
    have hrest := write_names_error_frame 20 (bytes.drop 16) v.players
      (v.players.length % 65536) (by rw [jou_write_eq v bytes h16] at herr; exact herr)
    rw [jou_write_eq v bytes h16]
    dsimp only
    simp only [write_names_header]
    rw [write_header_eq_of_length _ hlen16, hrest]
    constructor
    · rw [List.take_append_of_le_length (by simp)]
      simp
    · rw [List.drop_left' (by simp)]
  · intro v bytes h16 herr
    have hlen16 : (bytes.take 16).length = 16 := by
      rw [List.length_take]
      omega
    have hrest := write_names_error_frame 26 (bytes.drop 16) v.tournaments
      (v.tournaments.length % 65536) (by rw [trn_write_eq v bytes h16] at herr; exact herr)
    rw [trn_write_eq v bytes h16]
    dsimp only
    simp only [write_names_header]
    rw [write_header_eq_of_length _ hlen16, hrest]
    constructor
    · rw [List.take_append_of_le_length (by simp)]
      simp
    · rw [List.drop_left' (by simp)]
  · intro v bytes h16 herr
    have hlen16 : (bytes.take 16).length = 16 := by
      rw [List.length_take]
      omega
    have hrest := write_games_error_frame 60 (bytes.drop 16) v.games
      (v.games.length % 4294967296) (by rw [wtb_write_eq v bytes h16] at herr; exact herr)
    rw [wtb_write_eq v bytes h16]
    dsimp only
    simp only [write_games_header]
    rw [write_header_eq_of_length _ hlen16]
    rw [show write_games 60 68 (bytes.drop 16) v.games (v.games.length % 4294967296) =
      write_games 60 (60 + 8) (bytes.drop 16) v.games (v.games.length % 4294967296) from rfl,
      hrest]
    constructor
    · rw [List.take_append_of_le_length (by simp)]
      simp
    · rw [List.drop_left' (by simp)]
  · intro v bytes h16 herr
    have hlen16 : (bytes.take 16).length = 16 := by
      rw [List.length_take]
      omega
    have hrest := write_games_error_frame 96 (bytes.drop 16) v.games
      (v.games.length % 4294967296) (by rw [wtd_write_eq v bytes h16] at herr; exact herr)
    rw [wtd_write_eq v bytes h16]
    dsimp only
    simp only [write_games_header]
    rw [write_header_eq_of_length _ hlen16]
    rw [show write_games 96 104 (bytes.drop 16) v.games (v.games.length % 4294967296) =
      write_games 96 (96 + 8) (bytes.drop 16) v.games (v.games.length % 4294967296) from rfl,
      hrest]
    constructor
    · rw [List.take_append_of_le_length (by simp)]
      simp
    · rw [List.drop_left' (by simp)]

/-- C8 witness: a failed `Jou::write` into an 18-byte zero buffer (size
mismatch) leaves the encoded header in bytes 0..=14 and bytes 16.. unchanged. -/
theorem write_failure_frame_witness :
    (Jou.write ⟨1, 2, 3, 4, []⟩ (List.replicate 18 0)).2.take 15 =
      [1, 2, 3, 4, 0, 0, 0, 0, 0, 0, 0, 0, 0, 0, 0] ∧
    (Jou.write ⟨1, 2, 3, 4, []⟩ (List.replicate 18 0)).2.drop 16 =
      (List.replicate 18 0).drop 16 :=
  write_failure_frame.1 ⟨1, 2, 3, 4, []⟩ (List.replicate 18 0) (by simp)
    (by intro hok; exact Except.noConfusion hok)

/-- C1: the round trip fails on the code. Writing the valid `Jou` value with
creation date bytes 0 and a single empty player name into a freshly
zero-initialized buffer of exactly `size() = 36` bytes succeeds, but reading
that buffer back returns the one-byte name `[48]` (the 0x30 terminator that
`write_names` stored) instead of the empty name: `write_names` terminates each
name with 0x30 while `read_names` scans for the NUL byte 0x00, so the
terminator byte becomes part of the name on the way back. -/
theorem roundtrip_read_write_mismatch :
    (Jou.write ⟨0, 0, 0, 0, [[]]⟩ (List.replicate 36 0)).1 = Except.ok () ∧
    Jou.read (Jou.write ⟨0, 0, 0, 0, [[]]⟩ (List.replicate 36 0)).2 =
      some ⟨0, 0, 0, 0, [[48]]⟩ ∧
    (⟨0, 0, 0, 0, [[48]]⟩ : Jou) ≠ ⟨0, 0, 0, 0, [[]]⟩ :=
  ⟨rfl, rfl, by decide⟩

/-- C2 counterexample: the 56-byte "ALICE"/"BOB" scenario buffer is accepted by
`Jou::read`, but it decodes to the names `"ALICE0"` (6 bytes) and `"BOB0"`
(4 bytes), not to `"ALICE"` and `"BOB"`: the decoder scans each slot for NUL
(0x00), so the 0x30 byte is part of the decoded name. -/
theorem alice_bob_scenario_counterexample :
    Jou.read aliceBobBuffer =
      some ⟨20, 5, 6, 21, [[65, 76, 73, 67, 69, 48], [66, 79, 66, 48]]⟩ ∧
    ([[65, 76, 73, 67, 69, 48], [66, 79, 66, 48]] :  List (List Nat)) ≠
      [[65, 76, 73, 67, 69], [66, 79, 66]] :=
  ⟨rfl, by decide⟩

/-- C2 (amended): the 56-byte scenario buffer is accepted by `Jou::read` and
decodes to exactly the two names `"ALICE0"` and `"BOB0"` (6 and 4 bytes), and
`Jou::write` of the decoded value into a 56-byte zero buffer succeeds and
reproduces the original buffer except at offsets 22 and 40, where the newly
written 0x30 terminators replace the original 0x00 bytes. -/
theorem alice_bob_scenario_amended :
    Jou.read aliceBobBuffer =
      some ⟨20, 5, 6, 21, [[65, 76, 73, 67, 69, 48], [66, 79, 66, 48]]⟩ ∧
    (Jou.write ⟨20, 5, 6, 21, [[65, 76, 73, 67, 69, 48], [66, 79, 66, 48]]⟩
      (List.replicate 56 0)).1 = Except.ok () ∧
    (Jou.write ⟨20, 5, 6, 21, [[65, 76, 73, 67, 69, 48], [66, 79, 66, 48]]⟩
      (List.replicate 56 0)).2 = (aliceBobBuffer.set 22 48).set 40 48 :=
  ⟨rfl, rfl, rfl⟩

end Wthor
